import Mathlib

/-!
Verification development for the `state` package of `infosecual/smartnode`
(file `shared/services/state/network-state.go`).

The development is a shallow embedding of the two public operations of the
package:

* `CreateNetworkState` — the snapshot builder.  Its external reads (Beacon
  block, protocol scalars, entity lists, validator statuses) are modelled as
  oracle inputs: each field of `BuilderInputs` is the result that the
  corresponding external call returns in one particular run.
* `NetworkState.CalculateEffectiveStakes` — the effective-stake calculator.

Modelling conventions:

* `big.Int` values are unbounded `Int`; `big.Int.Div` is Euclidean division
  (`Int.ediv`, remainder in `[0, |divisor|)`), and a zero divisor is a runtime
  abort (Go panic), modelled by `Option` with `none` meaning the process dies.
* Go integer division on machine integers (`/` on `time.Duration`) truncates
  toward zero, modelled by `Int.tdiv`; `uint64` arithmetic wraps modulo `2^64`
  and conversions to signed 64-bit values reinterpret modulo `2^64` into
  `[-2^63, 2^63)` (`wrap64`).
* `time.Time` is an exact count of nanoseconds (`Int`); `time.Time.Sub`
  saturates to the `time.Duration` (int64) range, per its documentation.
* The logger is observability only and is omitted (the Go code only reads it
  through `logLine`, which never affects any computed value).
-/

/-- Ethereum addresses (`common.Address`) are opaque identifiers; their only
use in this package is equality and map lookup, so they are modelled as `Nat`. -/
abbrev Address := Nat

/-- Validator public keys (`types.ValidatorPubkey`) are opaque identifiers used
for equality and lookup only.  `0` plays the role of the empty pubkey
(`types.ValidatorPubkey{}`). -/
abbrev ValidatorPubkey := Nat

/-- The empty pubkey `types.ValidatorPubkey{}` compared against at line 157. -/
def emptyPubkey : ValidatorPubkey := 0

/-- The type `types.MinipoolStatus` (rocketpool-go): the calculator only compares
against `types.Staking`. -/
inductive MinipoolStatus where
  | Initialised
  | Prelaunch
  | Staking
  | Withdrawable
  | Dissolved
deriving DecidableEq

/-- The fields of `beacon.Eth2Config` read by this package (`GenesisTime`,
`SecondsPerSlot`, `SlotsPerEpoch`, all `uint64`). -/
structure Eth2Config where
  GenesisTime : Nat
  SecondsPerSlot : Nat
  SlotsPerEpoch : Nat
deriving DecidableEq

/-- The fields of `beacon.ValidatorStatus` read by this package
(`ActivationEpoch`, `ExitEpoch`, both `uint64`). -/
structure ValidatorStatus where
  ActivationEpoch : Nat
  ExitEpoch : Nat
deriving DecidableEq

/-- The fields of `node.NativeNodeDetails` read by this package.
`RplStake` and `RegistrationTime` are `*big.Int` (exact integers). -/
structure NativeNodeDetails where
  NodeAddress : Address
  RplStake : Int
  RegistrationTime : Int
deriving DecidableEq

/-- The fields of `minipool.NativeMinipoolDetails` read by this package.
`UserDepositBalance` and `NodeDepositBalance` are `*big.Int`. -/
structure NativeMinipoolDetails where
  MinipoolAddress : Address
  NodeAddress : Address
  Pubkey : ValidatorPubkey
  Exists : Bool
  Status : MinipoolStatus
  UserDepositBalance : Int
  NodeDepositBalance : Int
deriving DecidableEq

/-- Go struct `NetworkDetails` (network-state.go lines 27-37).  `IntervalDuration` is a
`time.Duration`, i.e. a signed 64-bit count of nanoseconds, kept as `Int`;
the `*big.Int` fields are unbounded `Int`. -/
structure NetworkDetails where
  RplPrice : Int
  MinCollateralFraction : Int
  MaxCollateralFraction : Int
  IntervalDuration : Int
  NodeOperatorRewardsPercent : Int
  TrustedNodeOperatorRewardsPercent : Int
  ProtocolDaoRewardsPercent : Int
  PendingRPLRewards : Int
  RewardIndex : Nat
deriving DecidableEq

/-- Go struct `NetworkState` (network-state.go lines 39-62).  The Go maps are modelled
as lookup functions: a missing key is `none` (for the by-address indexes)
or the empty list (ranging over a `nil` slice from a missing by-node key
iterates zero times).  `ValidatorDetails` is an association list with
`List.lookup` as the map read.  The internal logger field is omitted. -/
structure NetworkState where
  ElBlockNumber : Nat
  BeaconSlotNumber : Nat
  BeaconConfig : Eth2Config
  NetworkDetails : NetworkDetails
  NodeDetails : List NativeNodeDetails
  NodeDetailsByAddress : Address → Option NativeNodeDetails
  MinipoolDetails : List NativeMinipoolDetails
  MinipoolDetailsByAddress : Address → Option NativeMinipoolDetails
  MinipoolDetailsByNode : Address → List NativeMinipoolDetails
  ValidatorDetails : List (ValidatorPubkey × ValidatorStatus)

/-- Reinterpretation of an integer as a signed 64-bit value (two's
complement): Go's `uint64` → `int64` conversions and `int64` overflow both
wrap modulo `2^64` into `[-2^63, 2^63)`. -/
def wrap64 (x : Int) : Int := Int.emod (x + 2 ^ 63) (2 ^ 64) - 2 ^ 63

/-- Go conversion `int64(u)` of a `uint64` value. -/
def uint64ToInt64 (n : Nat) : Int := wrap64 (Int.ofNat n)

/-- Saturation of `time.Time.Sub`: it saturates to the representable `time.Duration` range
(documented behaviour: "the maximum (or minimum) duration will be returned"). -/
def satDuration (x : Int) : Int := max (-(2 ^ 63)) (min x (2 ^ 63 - 1))

/-- Go `big.Int.Div` (Euclidean division, remainder in `[0, |y|)`); a zero
divisor is a division-by-zero runtime abort, modelled as `none`. -/
def bigDiv (x y : Int) : Option Int :=
  if y = 0 then none else some (Int.ediv x y)

/-- Line 196: `slotTime := time.Unix(int64(genesisTime), 0).Add(time.Duration(slot*secondsPerSlot) * time.Second)`,
as a count of nanoseconds.  The `uint64` product wraps modulo `2^64`, its
conversion to `time.Duration` reinterprets it as `int64`, and the
multiplication by `time.Second` (`10^9`) wraps in `int64`; the `time.Time`
addition itself is exact. -/
def slotTimeOf (cfg : Eth2Config) (slot : Nat) : Int :=
  uint64ToInt64 cfg.GenesisTime * 1000000000
    + wrap64 (uint64ToInt64 ((slot * cfg.SecondsPerSlot) % 2 ^ 64) * 1000000000)

/-- The `slotTime` value as read from a `NetworkState`. -/
def slotTime (s : NetworkState) : Int :=
  slotTimeOf s.BeaconConfig s.BeaconSlotNumber

/-- Lines 260-261: `regTime := time.Unix(node.RegistrationTime.Int64(), 0)`,
as a count of nanoseconds.  `big.Int.Int64` reinterprets the low 64 bits. -/
def registrationTime (node : NativeNodeDetails) : Int :=
  wrap64 node.RegistrationTime * 1000000000

/-- Line 195: `intervalDurationBig := big.NewInt(int64(IntervalDuration.Seconds()))`.
`Duration.Seconds` converts to a count of seconds; modelled as exact
truncating division by `10^9` (exact for every duration below `2^53`
nanoseconds, i.e. about 104 days; protocol intervals are days long). -/
def intervalDurationBig (s : NetworkState) : Int :=
  Int.tdiv s.NetworkDetails.IntervalDuration 1000000000

/-- Line 220: `intervalEndEpoch := s.BeaconSlotNumber / s.BeaconConfig.SlotsPerEpoch`.
Go integer division by a zero variable is a runtime abort. -/
def epochOf (cfg : Eth2Config) (slot : Nat) : Option Nat :=
  if cfg.SlotsPerEpoch = 0 then none else some (slot / cfg.SlotsPerEpoch)

/-- The `intervalEndEpoch` value as read from a `NetworkState`. -/
def intervalEndEpoch (s : NetworkState) : Option Nat :=
  epochOf s.BeaconConfig s.BeaconSlotNumber

/-- One iteration of the eligibility loop (lines 209-235): a minipool adds its
`UserDepositBalance` to `eligibleBorrowedEth` and its `NodeDepositBalance` to
`eligibleBondedEth` exactly when every guard passes; each `continue` leaves the
accumulator unchanged. -/
def addEligible (s : NetworkState) (acc : Int × Int) (mpd : NativeMinipoolDetails) :
    Option (Int × Int) :=
  if mpd.Exists = true ∧ mpd.Status = MinipoolStatus.Staking then
    match s.ValidatorDetails.lookup mpd.Pubkey with
    | none => some acc
    | some validatorStatus =>
      match intervalEndEpoch s with
      | none => none
      | some epoch =>
        if epoch < validatorStatus.ActivationEpoch then some acc
        else if validatorStatus.ExitEpoch ≤ epoch then some acc
        else some (acc.1 + mpd.UserDepositBalance, acc.2 + mpd.NodeDepositBalance)
  else some acc

/-- Lines 207-235: the `(eligibleBorrowedEth, eligibleBondedEth)` pair for one
node, accumulated over `s.MinipoolDetailsByNode[node.NodeAddress]`. -/
def eligibleSums (s : NetworkState) (node : NativeNodeDetails) : Option (Int × Int) :=
  (s.MinipoolDetailsByNode node.NodeAddress).foldlM (addEligible s) (0, 0)

/-- Lines 248-255: `nodeStake` starts as a copy of `node.RplStake`; below
`minCollateral` it is set to `0`, above `maxCollateral` it is set to
`maxCollateral`. -/
def clampNodeStake (raw minCollateral maxCollateral : Int) : Int :=
  if raw < minCollateral then 0
  else if maxCollateral < raw then maxCollateral
  else raw

/-- Lines 207-255: the clamped (pre-scaling) stake of one node, with
`minCollateral = eligibleBorrowed * MinCollateralFraction / RplPrice` and
`maxCollateral = eligibleBonded * MaxCollateralFraction / RplPrice`
(`big.Int.Div`, which aborts on a zero `RplPrice`). -/
def clampedStake (s : NetworkState) (node : NativeNodeDetails) : Option Int := do
  let sums ← eligibleSums s node
  let minCollateral ← bigDiv (sums.1 * s.NetworkDetails.MinCollateralFraction)
      s.NetworkDetails.RplPrice
  let maxCollateral ← bigDiv (sums.2 * s.NetworkDetails.MaxCollateralFraction)
      s.NetworkDetails.RplPrice
  pure (clampNodeStake node.RplStake minCollateral maxCollateral)

/-- Lines 257-270: participation scaling.  `eligibleDuration` is
`slotTime.Sub(regTime)`; when it is below `IntervalDuration` the stake is
multiplied by `eligibleSeconds` (`eligibleDuration / time.Second`, truncating)
and divided by `intervalDurationBig` with `big.Int.Div`. -/
def scaleStake (s : NetworkState) (node : NativeNodeDetails) (stake : Int) : Option Int :=
  let eligibleDuration := satDuration (slotTime s - registrationTime node)
  if eligibleDuration < s.NetworkDetails.IntervalDuration then
    bigDiv (stake * Int.tdiv eligibleDuration 1000000000) (intervalDurationBig s)
  else pure stake

/-- Lines 206-274: the body of one worker of the errgroup, producing the value
written into `effectiveStakeSlice[i]`.  The closure's only Go-level return is
`return nil`, so its error result carries no information; `none` is a runtime
abort (division by zero), which kills the process rather than returning. -/
def nodeWorker (s : NetworkState) (scaleByParticipation : Bool)
    (node : NativeNodeDetails) : Option Int := do
  let stake ← clampedStake s node
  if scaleByParticipation then scaleStake s node stake else pure stake

/-- The contents of `effectiveStakeSlice` after all workers have run: slot `i`
holds the result of the worker for `s.NodeDetails[i]`. -/
def effectiveStakeSlice (s : NetworkState) (scaleByParticipation : Bool) :
    List (Option Int) :=
  s.NodeDetails.map (nodeWorker s scaleByParticipation)

/-- Sequences the per-slot worker results: `none` anywhere means some worker
aborted the process. -/
def collectSlots : List (Option Int) → Option (List Int)
  | [] => some []
  | none :: _ => none
  | some x :: rest => (collectSlots rest).map (x :: ·)

/-- Lines 281-286: the tally loop.  The `effectiveStakes` Go map is modelled
as the association list of its insertions (one per node, in slice order), and
`totalEffectiveStake` accumulates by exact addition in the same order. -/
def tally (s : NetworkState) (stakes : List Int) : List (Address × Int) × Int :=
  ((s.NodeDetails.map NativeNodeDetails.NodeAddress).zip stakes,
    stakes.foldl (· + ·) 0)

/-- Go method `NetworkState.CalculateEffectiveStakes` (lines 192-289).  The outer
`Option` is process death by a worker's runtime abort; the `Except` layer is
the Go error result.  Every worker closure ends in `return nil`, so
`wg.Wait()` always yields `nil` and the `Except.error` branch is never
produced. -/
def CalculateEffectiveStakes (s : NetworkState) (scaleByParticipation : Bool) :
    Option (Except String (List (Address × Int) × Int)) :=
  match collectSlots (effectiveStakeSlice s scaleByParticipation) with
  | none => none
  | some stakes => some (Except.ok (tally s stakes))

/-! ## Concurrent execution of the calculator

Lines 198-279: each worker `i` writes only `effectiveStakeSlice[i]`, and the
value written depends only on the (read-only) state and on `i`.  A concurrent
execution under any worker-pool size is therefore determined by the order in
which slots get written; `runSchedule` replays an arbitrary completion order
over the pre-sized slice (`make([]*big.Int, nodeCount)` starts all-`nil`,
modelled as all-`none`). -/

/-- One slot write: worker `i` stores its result into slice position `i`
(a no-op for an out-of-range index, which no schedule of interest contains). -/
def scheduleStep (s : NetworkState) (scaleByParticipation : Bool)
    (slots : List (Option Int)) (i : Nat) : List (Option Int) :=
  match s.NodeDetails[i]? with
  | some node => slots.set i (nodeWorker s scaleByParticipation node)
  | none => slots

/-- The slice contents after the workers complete in the order given by
`order` (one entry per completed worker). -/
def runSchedule (s : NetworkState) (scaleByParticipation : Bool)
    (order : List Nat) : List (Option Int) :=
  order.foldl (scheduleStep s scaleByParticipation)
    (List.replicate s.NodeDetails.length none)

/-- The calculator as executed under an arbitrary worker
completion order: fill the slice per `order`, then run the sequential tally
loop of lines 281-286. -/
def CalculateEffectiveStakesScheduled (s : NetworkState) (scaleByParticipation : Bool)
    (order : List Nat) : Option (Except String (List (Address × Int) × Int)) :=
  match collectSlots (runSchedule s scaleByParticipation order) with
  | none => none
  | some stakes => some (Except.ok (tally s stakes))

/-! ## Snapshot construction (`CreateNetworkState`, lines 64-182)

The index-building loops (lines 148-168) take the address of the single
`range` loop variable (`&details`).  The repository targets pre-1.22 Go
semantics (witness the `i := i` capture idiom at line 205), under which every
iteration reuses one variable, so every pointer stored in the three maps
aliases that one variable, whose final content is the last element of the
list being indexed.  The map keys, by contrast, are evaluated per iteration.
The definitions below model exactly that: lookups succeed for every key that
was inserted, but every successful lookup dereferences to the last list
element. -/

/-- Lines 148-150: the node lookup.  Key set: every `NodeAddress` in the list;
every stored pointer dereferences to the final value of the loop variable,
i.e. the last element. -/
def nodeLookupIndex (nodes : List NativeNodeDetails) : Address → Option NativeNodeDetails :=
  fun a =>
    if a ∈ nodes.map NativeNodeDetails.NodeAddress then nodes.getLast? else none

/-- Lines 155-156: the minipool by-address lookup, with the same aliasing. -/
def minipoolLookupIndex (mps : List NativeMinipoolDetails) :
    Address → Option NativeMinipoolDetails :=
  fun a =>
    if a ∈ mps.map NativeMinipoolDetails.MinipoolAddress then mps.getLast? else none

/-- Lines 161-167: the node-to-minipools map.  For a node address `a` the Go
map holds one appended pointer per minipool whose `NodeAddress` equals `a`
(insertion order), and each pointer dereferences to the last element of the
whole minipool list.  A key that was never inserted reads as a `nil` slice,
i.e. the empty list. -/
def minipoolsByNodeIndex (mps : List NativeMinipoolDetails) :
    Address → List NativeMinipoolDetails :=
  fun a =>
    match mps.getLast? with
    | none => []
    | some last => (mps.filter (fun m => m.NodeAddress == a)).map (fun _ => last)

/-- Lines 153-159: the pubkeys passed to `GetValidatorStatuses`: every
non-empty `Pubkey` of the minipool list, in order.  (`pubkeys` is a value
slice, unaffected by the pointer aliasing.) -/
def collectPubkeys (mps : List NativeMinipoolDetails) : List ValidatorPubkey :=
  (mps.filter (fun m => m.Pubkey != emptyPubkey)).map NativeMinipoolDetails.Pubkey

/-- The results of the external reads performed by one run of
`CreateNetworkState`, in oracle form: each field is what the corresponding
call returns in that run.  `GetClaimIntervalTime`, the rewards-percent and
pending-rewards getters live elsewhere in the repository; only their
`(value, error)` results matter here.  `beaconBlock` carries the
`ExecutionBlockNumber` of the returned block together with the `exists`
flag of `GetBeaconBlock`. -/
structure BuilderInputs where
  beaconBlock : Except String (Nat × Bool)
  rplPrice : Except String Int
  minCollateralFraction : Except String Int
  maxCollateralFraction : Except String Int
  rewardIndex : Except String Nat
  intervalDuration : Except String Int
  nodeOperatorRewardsPercent : Except String Int
  trustedNodeOperatorRewardsPercent : Except String Int
  protocolDaoRewardsPercent : Except String Int
  pendingRPLRewards : Except String Int
  nodeDetails : Except String (List NativeNodeDetails)
  minipoolDetails : Except String (List NativeMinipoolDetails)
  validatorStatuses : Except String (List (ValidatorPubkey × ValidatorStatus))

/-- Error wrapping `fmt.Errorf("...: %w", err)` wrapping of a failed read. -/
def wrapErr (msg : String) : Except String α → Except String α
  | Except.error e => Except.error (msg ++ ": " ++ e)
  | Except.ok v => Except.ok v

/-- Go function `CreateNetworkState` (lines 64-182).  Each external read aborts the whole
construction on failure, with the same propagation order as the source.  The
fields `ElBlockNumber`, `BeaconSlotNumber` and `MinipoolDetails` of the state
literal at lines 81-87 are never assigned afterwards, so the returned
snapshot keeps their Go zero values. -/
def CreateNetworkState (inp : BuilderInputs) (slotNumber : Nat)
    (beaconConfig : Eth2Config) : Except String NetworkState := do
  let beaconBlock ← wrapErr "error getting Beacon block for slot" inp.beaconBlock
  if beaconBlock.2 = false then
    Except.error ("slot " ++ toString slotNumber ++ " did not have a Beacon block")
  else do
    let rplPrice ← wrapErr "error getting RPL price ratio" inp.rplPrice
    let minCollateralFraction ←
      wrapErr "error getting minimum per minipool stake" inp.minCollateralFraction
    let maxCollateralFraction ←
      wrapErr "error getting maximum per minipool stake" inp.maxCollateralFraction
    let rewardIndex ← wrapErr "error getting reward index" inp.rewardIndex
    let intervalDuration ← wrapErr "error getting interval duration" inp.intervalDuration
    let nodeOperatorRewardsPercent ←
      wrapErr "error getting node operator rewards percent" inp.nodeOperatorRewardsPercent
    let trustedNodeOperatorRewardsPercent ←
      wrapErr "error getting trusted node operator rewards percent"
        inp.trustedNodeOperatorRewardsPercent
    let protocolDaoRewardsPercent ←
      wrapErr "error getting protocol DAO rewards percent" inp.protocolDaoRewardsPercent
    let pendingRPLRewards ←
      wrapErr "error getting pending RPL rewards" inp.pendingRPLRewards
    let nodeDetails ← inp.nodeDetails
    let minipoolDetails ← inp.minipoolDetails
    let _pubkeys := collectPubkeys minipoolDetails
    let validatorDetails ← inp.validatorStatuses
    pure
      { ElBlockNumber := 0
        BeaconSlotNumber := 0
        BeaconConfig := beaconConfig
        NetworkDetails :=
          { RplPrice := rplPrice
            MinCollateralFraction := minCollateralFraction
            MaxCollateralFraction := maxCollateralFraction
            IntervalDuration := intervalDuration
            NodeOperatorRewardsPercent := nodeOperatorRewardsPercent
            TrustedNodeOperatorRewardsPercent := trustedNodeOperatorRewardsPercent
            ProtocolDaoRewardsPercent := protocolDaoRewardsPercent
            PendingRPLRewards := pendingRPLRewards
            RewardIndex := rewardIndex }
        NodeDetails := nodeDetails
        NodeDetailsByAddress := nodeLookupIndex nodeDetails
        MinipoolDetails := []
        MinipoolDetailsByAddress := minipoolLookupIndex minipoolDetails
        MinipoolDetailsByNode := minipoolsByNodeIndex minipoolDetails
        ValidatorDetails := validatorDetails }

/-! ## Heap-level embedding of the calculator

`big.Int` values are mutable heap cells in Go.  To state that
`CalculateEffectiveStakes` leaves every pre-existing cell — in particular
every `*big.Int` reachable from the `NetworkState` — untouched, the
calculator is embedded a second time over an explicit store: a cell is an
index into a list of integers, `big.NewInt` appends a fresh cell, and the
in-place `Set`/`Add`/`Mul`/`Div`/`SetUint64` receiver updates are writes.
Every formula is the same as in the value-level embedding above; only the
representation of `big.Int` differs. -/

/-- A pointer `*big.Int`: an index into the store. -/
abbrev Ref := Nat

/-- The heap of allocated `big.Int` cells, in allocation order. -/
abbrev Store := List Int

/-- Dereference a cell (out-of-range reads do not occur in runs of interest;
they default to `0`). -/
def readRef (σ : Store) (r : Ref) : Int := σ.getD r 0

/-- In-place update of a cell (the receiver of `Set`/`Add`/`Mul`/`Div`). -/
def writeRef (σ : Store) (r : Ref) (v : Int) : Store := σ.set r v

/-- Allocation `big.NewInt(v)`: a fresh cell holding `v`. -/
def allocRef (σ : Store) (v : Int) : Ref × Store := (σ.length, σ ++ [v])

/-- Go struct `node.NativeNodeDetails` with its `*big.Int` fields as cells. -/
structure NativeNodeDetailsH where
  NodeAddress : Address
  RplStake : Ref
  RegistrationTime : Ref

/-- Go struct `minipool.NativeMinipoolDetails` with its `*big.Int` fields as cells. -/
structure NativeMinipoolDetailsH where
  MinipoolAddress : Address
  NodeAddress : Address
  Pubkey : ValidatorPubkey
  Exists : Bool
  Status : MinipoolStatus
  UserDepositBalance : Ref
  NodeDepositBalance : Ref

/-- Go struct `NetworkDetails` with its `*big.Int` fields as cells (`IntervalDuration`
is a `time.Duration` value, not a pointer). -/
structure NetworkDetailsH where
  RplPrice : Ref
  MinCollateralFraction : Ref
  MaxCollateralFraction : Ref
  IntervalDuration : Int

/-- The part of `NetworkState` read by `CalculateEffectiveStakes`, heap form. -/
structure NetworkStateH where
  BeaconSlotNumber : Nat
  BeaconConfig : Eth2Config
  NetworkDetails : NetworkDetailsH
  NodeDetails : List NativeNodeDetailsH
  MinipoolDetailsByNode : Address → List NativeMinipoolDetailsH
  ValidatorDetails : List (ValidatorPubkey × ValidatorStatus)

/-- Heap form of one iteration of the eligibility loop (lines 209-235):
`eligibleBorrowedEth.Add(eligibleBorrowedEth, mpd.UserDepositBalance)` then
`eligibleBondedEth.Add(eligibleBondedEth, mpd.NodeDepositBalance)`, performed
sequentially on cells `b` and `d`. -/
def addEligibleH (s : NetworkStateH) (b d : Ref) (σ : Store)
    (mpd : NativeMinipoolDetailsH) : Option Store :=
  if mpd.Exists = true ∧ mpd.Status = MinipoolStatus.Staking then
    match s.ValidatorDetails.lookup mpd.Pubkey with
    | none => some σ
    | some validatorStatus =>
      match epochOf s.BeaconConfig s.BeaconSlotNumber with
      | none => none
      | some epoch =>
        if epoch < validatorStatus.ActivationEpoch then some σ
        else if validatorStatus.ExitEpoch ≤ epoch then some σ
        else
          let σ1 := writeRef σ b (readRef σ b + readRef σ mpd.UserDepositBalance)
          some (writeRef σ1 d (readRef σ1 d + readRef σ1 mpd.NodeDepositBalance))
  else some σ

/-- Lines 207-235, heap form: allocate `eligibleBorrowedEth` and
`eligibleBondedEth` (`big.NewInt(0)` twice) and run the eligibility loop over
them; returns the two cells. -/
def eligibleSumsH (s : NetworkStateH) (node : NativeNodeDetailsH) (σ : Store) :
    Option ((Ref × Ref) × Store) :=
  let (b, σ1) := allocRef σ 0
  let (d, σ2) := allocRef σ1 0
  match (s.MinipoolDetailsByNode node.NodeAddress).foldlM (addEligibleH s b d) σ2 with
  | none => none
  | some σ3 => some ((b, d), σ3)

/-- Lines 237-245, heap form: `minCollateral := big.NewInt(0).Mul(b, minFrac)`
then `minCollateral.Div(minCollateral, price)` (abort on a zero divisor), and
the same for `maxCollateral`; returns the two cells. -/
def collateralsH (s : NetworkStateH) (b d : Ref) (σ : Store) :
    Option ((Ref × Ref) × Store) :=
  let (mc, σ1) := allocRef σ (readRef σ b * readRef σ s.NetworkDetails.MinCollateralFraction)
  if readRef σ1 s.NetworkDetails.RplPrice = 0 then none
  else
    let σ2 := writeRef σ1 mc (Int.ediv (readRef σ1 mc) (readRef σ1 s.NetworkDetails.RplPrice))
    let (xc, σ3) := allocRef σ2 (readRef σ2 d * readRef σ2 s.NetworkDetails.MaxCollateralFraction)
    if readRef σ3 s.NetworkDetails.RplPrice = 0 then none
    else some ((mc, xc), writeRef σ3 xc
      (Int.ediv (readRef σ3 xc) (readRef σ3 s.NetworkDetails.RplPrice)))

/-- Lines 247-255, heap form: `nodeStake := big.NewInt(0).Set(node.RplStake)`,
then `SetUint64(0)` below `minCollateral` or `Set(maxCollateral)` above
`maxCollateral`; returns the `nodeStake` cell. -/
def clampH (mc xc : Ref) (node : NativeNodeDetailsH) (σ : Store) : Ref × Store :=
  let (ns, σ1) := allocRef σ (readRef σ node.RplStake)
  if readRef σ1 ns < readRef σ1 mc then (ns, writeRef σ1 ns 0)
  else if readRef σ1 xc < readRef σ1 ns then (ns, writeRef σ1 ns (readRef σ1 xc))
  else (ns, σ1)

/-- Lines 257-270, heap form: when the eligible duration is below the
interval, allocate `eligibleSeconds`, multiply `nodeStake` in place and divide
it in place by the shared `intervalDurationBig` cell (abort on zero). -/
def scaleH (s : NetworkStateH) (ivalBig ns : Ref) (node : NativeNodeDetailsH)
    (σ : Store) : Option Store :=
  let eligibleDuration := satDuration
    (slotTimeOf s.BeaconConfig s.BeaconSlotNumber
      - wrap64 (readRef σ node.RegistrationTime) * 1000000000)
  if eligibleDuration < s.NetworkDetails.IntervalDuration then
    let (es, σ1) := allocRef σ (Int.tdiv eligibleDuration 1000000000)
    let σ2 := writeRef σ1 ns (readRef σ1 ns * readRef σ1 es)
    if readRef σ2 ivalBig = 0 then none
    else some (writeRef σ2 ns (Int.ediv (readRef σ2 ns) (readRef σ2 ivalBig)))
  else some σ

/-- Heap form of one worker (lines 206-274): the four phases in source order.
`ivalBig` is the shared `intervalDurationBig` cell allocated before the
workers start; the returned `Ref` is the `nodeStake` cell stored into the
result slice. -/
def nodeWorkerH (s : NetworkStateH) (scaleByParticipation : Bool) (ivalBig : Ref)
    (node : NativeNodeDetailsH) (σ : Store) : Option (Ref × Store) :=
  match eligibleSumsH s node σ with
  | none => none
  | some ((b, d), σ1) =>
    match collateralsH s b d σ1 with
    | none => none
    | some ((mc, xc), σ2) =>
      let (ns, σ3) := clampH mc xc node σ2
      if scaleByParticipation then
        match scaleH s ivalBig ns node σ3 with
        | none => none
        | some σ4 => some (ns, σ4)
      else some (ns, σ3)

/-- All workers, in node order (any completion order writes the same cells;
the store is threaded in one canonical order). -/
def runWorkersH (s : NetworkStateH) (scaleByParticipation : Bool) (ivalBig : Ref) :
    List NativeNodeDetailsH → Store → Option (List Ref × Store)
  | [], σ => some ([], σ)
  | node :: rest, σ =>
    match nodeWorkerH s scaleByParticipation ivalBig node σ with
    | none => none
    | some (r, σ) =>
      match runWorkersH s scaleByParticipation ivalBig rest σ with
      | none => none
      | some (rs, σ) => some (r :: rs, σ)

/-- Heap form of the tally loop (lines 281-286):
`totalEffectiveStake.Add(totalEffectiveStake, nodeStake)` per slot. -/
def tallyH (total : Ref) : List (Address × Ref) → Store → Store
  | [], σ => σ
  | (_, r) :: rest, σ =>
    tallyH total rest (writeRef σ total (readRef σ total + readRef σ r))

/-- Heap form of `CalculateEffectiveStakes` (lines 192-289): allocate
`totalEffectiveStake` and `intervalDurationBig`, run the workers, tally.
Returns the effective-stakes map (address to `nodeStake` cell), the total
cell, and the final store. -/
def CalculateEffectiveStakesH (s : NetworkStateH) (scaleByParticipation : Bool)
    (σ : Store) : Option ((List (Address × Ref) × Ref) × Store) :=
  let (total, σ) := allocRef σ 0
  let (ivalBig, σ) := allocRef σ (Int.tdiv s.NetworkDetails.IntervalDuration 1000000000)
  match runWorkersH s scaleByParticipation ivalBig s.NodeDetails σ with
  | none => none
  | some (refs, σ) =>
    let pairs := (s.NodeDetails.map NativeNodeDetailsH.NodeAddress).zip refs
    some ((pairs, total), tallyH total pairs σ)

/-! ## Derived notions used in the statements -/

/-- The eligibility condition of lines 210-230, as a single predicate: the
minipool exists, is staking, its pubkey resolves to a validator status, that
validator activated no later than `epoch` and exits strictly after `epoch`. -/
def eligibleMinipool (s : NetworkState) (epoch : Nat) (mpd : NativeMinipoolDetails) : Bool :=
  mpd.Exists && mpd.Status == MinipoolStatus.Staking &&
    match s.ValidatorDetails.lookup mpd.Pubkey with
    | none => false
    | some validatorStatus =>
      decide (validatorStatus.ActivationEpoch ≤ epoch)
        && decide (epoch < validatorStatus.ExitEpoch)

/-- Sum of `UserDepositBalance` over the eligible minipools of a list. -/
def borrowedSum (s : NetworkState) (epoch : Nat) (l : List NativeMinipoolDetails) : Int :=
  ((l.filter (eligibleMinipool s epoch)).map NativeMinipoolDetails.UserDepositBalance).sum

/-- Sum of `NodeDepositBalance` over the eligible minipools of a list. -/
def bondedSum (s : NetworkState) (epoch : Nat) (l : List NativeMinipoolDetails) : Int :=
  ((l.filter (eligibleMinipool s epoch)).map NativeMinipoolDetails.NodeDepositBalance).sum

/-- The value of the local `minCollateral` of lines 239-240
(`eligibleBorrowed * MinCollateralFraction / RplPrice`, Euclidean division),
expressed through the filter characterization of the eligible sums. -/
def minCollateral (s : NetworkState) (node : NativeNodeDetails) (epoch : Nat) : Int :=
  Int.ediv (borrowedSum s epoch (s.MinipoolDetailsByNode node.NodeAddress)
      * s.NetworkDetails.MinCollateralFraction) s.NetworkDetails.RplPrice

/-- The value of the local `maxCollateral` of lines 242-245
(`eligibleBonded * MaxCollateralFraction / RplPrice`, Euclidean division). -/
def maxCollateral (s : NetworkState) (node : NativeNodeDetails) (epoch : Nat) : Int :=
  Int.ediv (bondedSum s epoch (s.MinipoolDetailsByNode node.NodeAddress)
      * s.NetworkDetails.MaxCollateralFraction) s.NetworkDetails.RplPrice

/-- Whether `CalculateEffectiveStakes` returns normally with a `nil` error. -/
def calcSucceeds (s : NetworkState) (scaleByParticipation : Bool) : Bool :=
  match CalculateEffectiveStakes s scaleByParticipation with
  | some (Except.ok _) => true
  | _ => false

/-- Whether the `GetBeaconBlock` read succeeded and the block exists
(lines 66-72: both an error and a missing block abort construction). -/
def beaconBlockOk (inp : BuilderInputs) : Bool :=
  match inp.beaconBlock with
  | Except.ok (_, true) => true
  | _ => false

/-- A per-operator result entry with a non-negative stake. -/
def nonnegStake (p : Address × Int) : Bool := decide (0 ≤ p.2)

/-- `σ` extends `σ₀` without disturbing it: no cell allocated before the call
has changed. -/
def Preserve (σ₀ σ : Store) : Prop :=
  σ₀.length ≤ σ.length ∧ ∀ a, a < σ₀.length → σ.getD a 0 = σ₀.getD a 0

/-- The value of cell `a` after `CalculateEffectiveStakesH` finishes (when a
worker aborts the process nothing is returned, and the cell trivially keeps
its value). -/
def readAfterCalc (s : NetworkStateH) (scaleByParticipation : Bool) (σ : Store) (a : Nat) : Int :=
  match CalculateEffectiveStakesH s scaleByParticipation σ with
  | none => σ.getD a 0
  | some r => r.2.getD a 0

/-! ## Concrete fixtures for counterexamples and witnesses -/

/-- Protocol parameters used by the well-behaved fixture. -/
def baseDetails : NetworkDetails :=
  { RplPrice := 2
    MinCollateralFraction := 1
    MaxCollateralFraction := 3
    IntervalDuration := 100000000000
    NodeOperatorRewardsPercent := 0
    TrustedNodeOperatorRewardsPercent := 0
    ProtocolDaoRewardsPercent := 0
    PendingRPLRewards := 0
    RewardIndex := 0 }

/-- Consensus timing used by the fixtures. -/
def goodConfig : Eth2Config :=
  { GenesisTime := 1000, SecondsPerSlot := 12, SlotsPerEpoch := 32 }

def node1 : NativeNodeDetails :=
  { NodeAddress := 1, RplStake := 50, RegistrationTime := 1668 }

def node2 : NativeNodeDetails :=
  { NodeAddress := 2, RplStake := 500, RegistrationTime := 1718 }

def mpA : NativeMinipoolDetails :=
  { MinipoolAddress := 11, NodeAddress := 1, Pubkey := 7, Exists := true,
    Status := MinipoolStatus.Staking, UserDepositBalance := 16, NodeDepositBalance := 8 }

def mpB : NativeMinipoolDetails :=
  { MinipoolAddress := 12, NodeAddress := 2, Pubkey := 9, Exists := true,
    Status := MinipoolStatus.Staking, UserDepositBalance := 100, NodeDepositBalance := 10 }

/-- A well-behaved two-operator snapshot: slot 64 (epoch 2), both validators
active, positive price, one operator clamped to `maxCollateral` and unscaled,
the other scaled by half an interval. -/
def goodState : NetworkState :=
  { ElBlockNumber := 0
    BeaconSlotNumber := 64
    BeaconConfig := goodConfig
    NetworkDetails := baseDetails
    NodeDetails := [node1, node2]
    NodeDetailsByAddress := nodeLookupIndex [node1, node2]
    MinipoolDetails := [mpA, mpB]
    MinipoolDetailsByAddress := minipoolLookupIndex [mpA, mpB]
    MinipoolDetailsByNode := fun a => if a = 1 then [mpA] else if a = 2 then [mpB] else []
    ValidatorDetails := [(7, { ActivationEpoch := 0, ExitEpoch := 100 }),
                         (9, { ActivationEpoch := 1, ExitEpoch := 100 })] }

def negNode : NativeNodeDetails :=
  { NodeAddress := 1, RplStake := 10, RegistrationTime := 2000 }

def negMp : NativeMinipoolDetails :=
  { MinipoolAddress := 5, NodeAddress := 1, Pubkey := 7, Exists := true,
    Status := MinipoolStatus.Staking, UserDepositBalance := 0, NodeDepositBalance := 100 }

/-- A snapshot whose one operator registered (second 2000) after the
snapshot's slot time (second 1000): with scaling enabled the elapsed duration
is negative. -/
def negState : NetworkState :=
  { ElBlockNumber := 0
    BeaconSlotNumber := 0
    BeaconConfig := goodConfig
    NetworkDetails := { baseDetails with RplPrice := 1, IntervalDuration := 64000000000 }
    NodeDetails := [negNode]
    NodeDetailsByAddress := nodeLookupIndex [negNode]
    MinipoolDetails := [negMp]
    MinipoolDetailsByAddress := minipoolLookupIndex [negMp]
    MinipoolDetailsByNode := fun a => if a = 1 then [negMp] else []
    ValidatorDetails := [(7, { ActivationEpoch := 0, ExitEpoch := 10 })] }

/-- A snapshot with a non-zero price but a sub-second reward interval
(`intervalDurationBig = 0`): the scaling division divides by zero. -/
def subSecondState : NetworkState :=
  { ElBlockNumber := 0
    BeaconSlotNumber := 0
    BeaconConfig := goodConfig
    NetworkDetails := { baseDetails with RplPrice := 1, IntervalDuration := 500000000 }
    NodeDetails := [{ NodeAddress := 1, RplStake := 10, RegistrationTime := 1000 }]
    NodeDetailsByAddress := nodeLookupIndex [{ NodeAddress := 1, RplStake := 10, RegistrationTime := 1000 }]
    MinipoolDetails := []
    MinipoolDetailsByAddress := minipoolLookupIndex []
    MinipoolDetailsByNode := fun _ => []
    ValidatorDetails := [] }

/-- A zero-price snapshot with no operators. -/
def zeroPriceEmptyState : NetworkState :=
  { ElBlockNumber := 0
    BeaconSlotNumber := 0
    BeaconConfig := goodConfig
    NetworkDetails := { baseDetails with RplPrice := 0 }
    NodeDetails := []
    NodeDetailsByAddress := nodeLookupIndex []
    MinipoolDetails := []
    MinipoolDetailsByAddress := minipoolLookupIndex []
    MinipoolDetailsByNode := fun _ => []
    ValidatorDetails := [] }

/-- A zero-price snapshot with one operator. -/
def zeroPriceState : NetworkState :=
  { zeroPriceEmptyState with NodeDetails := [negNode] }

/-- Oracle inputs in which every external read succeeds, delivering the
`goodState` entity lists. -/
def goodInputs : BuilderInputs :=
  { beaconBlock := Except.ok (5000, true)
    rplPrice := Except.ok 2
    minCollateralFraction := Except.ok 1
    maxCollateralFraction := Except.ok 3
    rewardIndex := Except.ok 0
    intervalDuration := Except.ok 100000000000
    nodeOperatorRewardsPercent := Except.ok 0
    trustedNodeOperatorRewardsPercent := Except.ok 0
    protocolDaoRewardsPercent := Except.ok 0
    pendingRPLRewards := Except.ok 0
    nodeDetails := Except.ok [node1, node2]
    minipoolDetails := Except.ok [mpA, mpB]
    validatorStatuses := Except.ok [(7, { ActivationEpoch := 0, ExitEpoch := 100 }),
                                    (9, { ActivationEpoch := 1, ExitEpoch := 100 })] }

/-- The node by-address lookup of the snapshot built from `goodInputs`. -/
def builtNodeLookup (a : Address) : Option NativeNodeDetails :=
  match CreateNetworkState goodInputs 64 goodConfig with
  | Except.error _ => none
  | Except.ok st => st.NodeDetailsByAddress a

/-- The minipool by-address lookup of the snapshot built from `goodInputs`. -/
def builtMinipoolLookup (a : Address) : Option NativeMinipoolDetails :=
  match CreateNetworkState goodInputs 64 goodConfig with
  | Except.error _ => none
  | Except.ok st => st.MinipoolDetailsByAddress a

/-- The by-node minipool lists of the snapshot built from `goodInputs`. -/
def builtMinipoolsByNode (a : Address) : List NativeMinipoolDetails :=
  match CreateNetworkState goodInputs 64 goodConfig with
  | Except.error _ => []
  | Except.ok st => st.MinipoolDetailsByNode a

def node1H : NativeNodeDetailsH :=
  { NodeAddress := 1, RplStake := 3, RegistrationTime := 4 }

def mpAH : NativeMinipoolDetailsH :=
  { MinipoolAddress := 11, NodeAddress := 1, Pubkey := 7, Exists := true,
    Status := MinipoolStatus.Staking, UserDepositBalance := 5, NodeDepositBalance := 6 }

/-- Heap fixture: cells `0..6` hold price, the two fractions, the node's
stake and registration time, and the minipool's two deposits. -/
def heapStore : Store := [2, 1, 3, 50, 1668, 16, 8]

/-- Heap form of a one-operator snapshot over `heapStore`. -/
def heapState : NetworkStateH :=
  { BeaconSlotNumber := 64
    BeaconConfig := goodConfig
    NetworkDetails :=
      { RplPrice := 0, MinCollateralFraction := 1, MaxCollateralFraction := 2,
        IntervalDuration := 100000000000 }
    NodeDetails := [node1H]
    MinipoolDetailsByNode := fun a => if a = 1 then [mpAH] else []
    ValidatorDetails := [(7, { ActivationEpoch := 0, ExitEpoch := 100 })] }

/-! ## Eligibility: the loop is a filter-and-sum -/

/-- One loop iteration either adds the minipool's deposits (when
`eligibleMinipool` holds) or leaves the accumulator unchanged; it aborts only
on the epoch division, excluded by `SlotsPerEpoch ≠ 0`. -/
theorem addEligible_eq (s : NetworkState) (hspe : s.BeaconConfig.SlotsPerEpoch ≠ 0)
    (acc : Int × Int) (mpd : NativeMinipoolDetails) :
    addEligible s acc mpd =
      some (if eligibleMinipool s (s.BeaconSlotNumber / s.BeaconConfig.SlotsPerEpoch) mpd
            then (acc.1 + mpd.UserDepositBalance, acc.2 + mpd.NodeDepositBalance)
            else acc) := by
  unfold addEligible eligibleMinipool intervalEndEpoch epochOf
  simp only [hspe, if_false, Bool.and_eq_true, beq_iff_eq, decide_eq_true_eq]
  by_cases hex : mpd.Exists = true ∧ mpd.Status = MinipoolStatus.Staking
  · simp only [hex, if_true, hex.1, hex.2, true_and]
    cases hlk : s.ValidatorDetails.lookup mpd.Pubkey with
    | none => simp
    | some vs =>
      by_cases hact : (s.BeaconSlotNumber / s.BeaconConfig.SlotsPerEpoch) < vs.ActivationEpoch
      · simp [hact, Nat.not_le_of_lt hact]
      · by_cases hexit : vs.ExitEpoch ≤ (s.BeaconSlotNumber / s.BeaconConfig.SlotsPerEpoch)
        · simp [hact, hexit, Nat.not_lt_of_le hexit, Nat.le_of_not_lt hact]
        · simp [hact, hexit, Nat.le_of_not_lt hact, Nat.lt_of_not_le hexit]
  · simp [hex]

/-- The eligibility loop over any list computes the filtered sums added to
the accumulator. -/
theorem foldlM_addEligible (s : NetworkState) (hspe : s.BeaconConfig.SlotsPerEpoch ≠ 0)
    (l : List NativeMinipoolDetails) : ∀ (acc : Int × Int),
    l.foldlM (addEligible s) acc =
      some (acc.1 + borrowedSum s (s.BeaconSlotNumber / s.BeaconConfig.SlotsPerEpoch) l,
            acc.2 + bondedSum s (s.BeaconSlotNumber / s.BeaconConfig.SlotsPerEpoch) l) := by
  induction l with
  | nil => intro acc; simp [List.foldlM_nil, borrowedSum, bondedSum]
  | cons x l ih =>
    intro acc
    rw [List.foldlM_cons, addEligible_eq s hspe acc x]
    simp only [Option.bind_eq_bind, Option.some_bind]
    by_cases hx : eligibleMinipool s (s.BeaconSlotNumber / s.BeaconConfig.SlotsPerEpoch) x
    · rw [if_pos hx, ih]
      simp [borrowedSum, bondedSum, List.filter_cons, hx, Int.add_assoc]
    · rw [if_neg hx, ih]
      simp [borrowedSum, bondedSum, List.filter_cons, hx]

/-- The eligible sums of a node are the filtered sums of its minipool list. -/
theorem eligibleSums_eq (s : NetworkState) (node : NativeNodeDetails)
    (hspe : s.BeaconConfig.SlotsPerEpoch ≠ 0) :
    eligibleSums s node =
      some (borrowedSum s (s.BeaconSlotNumber / s.BeaconConfig.SlotsPerEpoch)
              (s.MinipoolDetailsByNode node.NodeAddress),
            bondedSum s (s.BeaconSlotNumber / s.BeaconConfig.SlotsPerEpoch)
              (s.MinipoolDetailsByNode node.NodeAddress)) := by
  unfold eligibleSums
  rw [foldlM_addEligible s hspe]
  simp

/-- C3: a sub-account contributes its `UserDepositBalance` to
`eligibleBorrowedEth` and its `NodeDepositBalance` to `eligibleBondedEth`
exactly when it exists, is staking, has a resolved validator status whose
activation epoch is at most the epoch containing the snapshot's slot
(`slot / slotsPerEpoch`) and whose exit epoch is strictly greater than that
epoch (`eligibleMinipool`); every other sub-account contributes zero to both
sums, and no sub-account aborts the calculation (the result is `some`). -/
theorem c3_eligibility_filtering (s : NetworkState) (node : NativeNodeDetails)
    (hspe : s.BeaconConfig.SlotsPerEpoch ≠ 0) :
    eligibleSums s node =
      some (borrowedSum s (s.BeaconSlotNumber / s.BeaconConfig.SlotsPerEpoch)
              (s.MinipoolDetailsByNode node.NodeAddress),
            bondedSum s (s.BeaconSlotNumber / s.BeaconConfig.SlotsPerEpoch)
              (s.MinipoolDetailsByNode node.NodeAddress)) :=
  eligibleSums_eq s node hspe

/-- Witness for C3 at the concrete two-operator snapshot. -/
theorem c3_eligibility_filtering_witness :
    eligibleSums goodState node1 =
      some (borrowedSum goodState
              (goodState.BeaconSlotNumber / goodState.BeaconConfig.SlotsPerEpoch)
              (goodState.MinipoolDetailsByNode node1.NodeAddress),
            bondedSum goodState
              (goodState.BeaconSlotNumber / goodState.BeaconConfig.SlotsPerEpoch)
              (goodState.MinipoolDetailsByNode node1.NodeAddress)) :=
  c3_eligibility_filtering goodState node1 (by decide)

/-! ## Clamping (C2) -/

/-- C2: writing `minCollateral`/`maxCollateral` for the collateral bounds
computed from the eligible sub-account sums, the per-operator stake before
optional scaling is `0` when the raw stake is strictly below `minCollateral`,
`maxCollateral` when it is strictly above `maxCollateral`, and the raw stake
unchanged otherwise. -/
theorem c2_collateral_clamping (s : NetworkState) (node : NativeNodeDetails)
    (hp : s.NetworkDetails.RplPrice ≠ 0) (hspe : s.BeaconConfig.SlotsPerEpoch ≠ 0) :
    (node.RplStake < minCollateral s node (s.BeaconSlotNumber / s.BeaconConfig.SlotsPerEpoch) →
      clampedStake s node = some 0) ∧
    (¬ node.RplStake < minCollateral s node (s.BeaconSlotNumber / s.BeaconConfig.SlotsPerEpoch) →
      maxCollateral s node (s.BeaconSlotNumber / s.BeaconConfig.SlotsPerEpoch) < node.RplStake →
      clampedStake s node =
        some (maxCollateral s node (s.BeaconSlotNumber / s.BeaconConfig.SlotsPerEpoch))) ∧
    (¬ node.RplStake < minCollateral s node (s.BeaconSlotNumber / s.BeaconConfig.SlotsPerEpoch) →
      ¬ maxCollateral s node (s.BeaconSlotNumber / s.BeaconConfig.SlotsPerEpoch) < node.RplStake →
      clampedStake s node = some node.RplStake) := by
  have h := eligibleSums_eq s node hspe
  unfold clampedStake
  rw [h]
  simp only [Option.bind_eq_bind, Option.some_bind, bigDiv, hp, if_false, ite_false,
    reduceIte, pure]
  unfold minCollateral maxCollateral clampNodeStake
  refine ⟨?_, ?_, ?_⟩
  · intro h1
    simp [h1]
  · intro h1 h2
    simp [h1, h2]
  · intro h1 h2
    simp [h1, h2]

/-- Witness for C2: the first fixture operator is clamped to `maxCollateral`. -/
theorem c2_collateral_clamping_witness :
    clampedStake goodState node1 =
      some (maxCollateral goodState node1
        (goodState.BeaconSlotNumber / goodState.BeaconConfig.SlotsPerEpoch)) :=
  (c2_collateral_clamping goodState node1 (by decide) (by decide)).2.1
    (by decide) (by decide)

/-! ## Determinism under arbitrary worker schedules (C1) -/

/-- Writing slots never changes the slice length. -/
theorem foldl_scheduleStep_length (s : NetworkState) (flag : Bool) :
    ∀ (order : List Nat) (slots : List (Option Int)),
    (order.foldl (scheduleStep s flag) slots).length = slots.length := by
  intro order
  induction order with
  | nil => intro slots; rfl
  | cons j rest ih =>
    intro slots
    rw [List.foldl_cons, ih]
    unfold scheduleStep
    cases s.NodeDetails[j]? <;> simp

/-- After replaying any completion order, slot `i` holds worker `i`'s result
if `i` was scheduled, and its initial value otherwise: each slot has a single
writer and the written value depends only on the slot index. -/
theorem foldl_scheduleStep_getElem (s : NetworkState) (flag : Bool) :
    ∀ (order : List Nat) (slots : List (Option Int))
      (_ : slots.length = s.NodeDetails.length) (i : Nat),
    (order.foldl (scheduleStep s flag) slots)[i]? =
      if i ∈ order then (s.NodeDetails[i]?).map (nodeWorker s flag) else slots[i]? := by
  intro order
  induction order with
  | nil => intro slots _ i; simp
  | cons j rest ih =>
    intro slots hlen i
    rw [List.foldl_cons]
    have hstep : (scheduleStep s flag slots j).length = s.NodeDetails.length := by
      unfold scheduleStep
      cases s.NodeDetails[j]? <;> simp [hlen]
    rw [ih (scheduleStep s flag slots j) hstep i]
    by_cases hmem : i ∈ rest
    · simp [hmem, List.mem_cons]
    · simp only [hmem, if_false, List.mem_cons]
      by_cases hij : i = j
      · subst hij
        simp only [or_false, hmem, if_pos (Or.inl rfl)]
        unfold scheduleStep
        cases hnd : s.NodeDetails[i]? with
        | none =>
          have hge : s.NodeDetails.length ≤ i := by
            by_contra hlt
            exact absurd hnd (by simp [List.getElem?_eq_getElem (Nat.lt_of_not_le hlt)])
          have hs : slots.length ≤ i := by omega
          simp [hnd, List.getElem?_eq_none hs]
        | some node =>
          have hi : i < s.NodeDetails.length := by
            by_contra hge
            simp [List.getElem?_eq_none (Nat.le_of_not_lt hge)] at hnd
          rw [List.getElem?_set_self (by omega)]
          simp [hnd]
      · simp only [hij, or_false, if_neg (by simp [hij, hmem] : ¬ (i = j ∨ i ∈ rest))]
        unfold scheduleStep
        cases s.NodeDetails[j]? with
        | none => rfl
        | some node => exact List.getElem?_set_ne (by omega)

/-- Replaying any schedule that completes every worker exactly once produces
the canonical slice. -/
theorem runSchedule_eq_slice (s : NetworkState) (flag : Bool) (order : List Nat)
    (h : order.Perm (List.range s.NodeDetails.length)) :
    runSchedule s flag order = effectiveStakeSlice s flag := by
  apply List.ext_getElem?
  intro i
  unfold runSchedule effectiveStakeSlice
  rw [foldl_scheduleStep_getElem s flag order _ (by simp) i]
  by_cases hi : i < s.NodeDetails.length
  · have hmem : i ∈ order := h.mem_iff.mpr (List.mem_range.mpr hi)
    simp [hmem, List.getElem?_map]
  · have hmem : i ∉ order := fun hm => hi (List.mem_range.mp (h.mem_iff.mp hm))
    have hn : s.NodeDetails.length ≤ i := Nat.le_of_not_lt hi
    simp [hmem, List.getElem?_eq_none, hn]

/-- C1: the calculator is deterministic under concurrency — for any two
worker completion orders (each a permutation of the worker indices, covering
any worker-pool size, 1 or many), the per-operator effective-stake map and
the total are identical. -/
theorem c1_calculator_schedule_independent (s : NetworkState) (flag : Bool)
    (order1 order2 : List Nat)
    (h1 : order1.Perm (List.range s.NodeDetails.length))
    (h2 : order2.Perm (List.range s.NodeDetails.length)) :
    CalculateEffectiveStakesScheduled s flag order1 =
      CalculateEffectiveStakesScheduled s flag order2 := by
  unfold CalculateEffectiveStakesScheduled
  rw [runSchedule_eq_slice s flag order1 h1, runSchedule_eq_slice s flag order2 h2]

/-- Witness for C1: two opposite completion orders on the two-operator
fixture. -/
theorem c1_calculator_schedule_independent_witness :
    CalculateEffectiveStakesScheduled goodState false [1, 0] =
      CalculateEffectiveStakesScheduled goodState false [0, 1] :=
  c1_calculator_schedule_independent goodState false [1, 0] [0, 1]
    (by decide) (by decide)

/-! ## Zero price ratio (C4) -/

/-- C4 counterexample: the claim says a zero `RplPrice` makes
`CalculateEffectiveStakes` fail fast with an error.  On the zero-price
snapshot with no operators the call instead returns normally with a `nil`
error and an empty result — no error is ever produced. -/
theorem c4_zero_price_counterexample :
    zeroPriceEmptyState.NetworkDetails.RplPrice = 0 ∧
    CalculateEffectiveStakes zeroPriceEmptyState false = some (Except.ok ([], 0)) :=
  ⟨rfl, rfl⟩

/-- C4 amended: there is no zero-price check; with a zero `RplPrice` the
calculator never returns an error value.  With no operators it succeeds with
an empty result; with at least one operator the worker reaches the
`minCollateral` division and the `big.Int.Div` call aborts the process
(division-by-zero runtime panic) instead of returning. -/
theorem c4_zero_price_amended (s : NetworkState) (flag : Bool)
    (hp : s.NetworkDetails.RplPrice = 0) :
    (s.NodeDetails = [] → CalculateEffectiveStakes s flag = some (Except.ok ([], 0))) ∧
    (s.NodeDetails ≠ [] → CalculateEffectiveStakes s flag = none) := by
  constructor
  · intro h
    unfold CalculateEffectiveStakes effectiveStakeSlice tally
    rw [h]
    rfl
  · intro hne
    cases hnd : s.NodeDetails with
    | nil => exact absurd hnd hne
    | cons n rest =>
      unfold CalculateEffectiveStakes effectiveStakeSlice
      rw [hnd]
      have hw : nodeWorker s flag n = none := by
        unfold nodeWorker clampedStake
        cases hs : eligibleSums s n with
        | none => simp
        | some sums => simp [bigDiv, hp]
      rw [List.map_cons, hw]
      rfl

/-- Witness for the amended C4 at the one-operator zero-price snapshot. -/
theorem c4_zero_price_amended_witness :
    CalculateEffectiveStakes zeroPriceState false = none :=
  (c4_zero_price_amended zeroPriceState false rfl).2 (by decide)

/-! ## Index aliasing in the snapshot builder (C5) -/

/-- C5: the derived indexes do not mirror the primary lists.  The index loops
take the address of the single pre-Go-1.22 `range` variable, so on the
snapshot built from `goodInputs` the node index maps `node1`'s address to
`node2` (the last record), the minipool index maps `mpA`'s address to `mpB`,
and `node1`'s by-node list holds `mpB` instead of `mpA`. -/
theorem c5_index_aliasing_eval :
    builtNodeLookup node1.NodeAddress = some node2 ∧
    builtMinipoolLookup mpA.MinipoolAddress = some mpB ∧
    builtMinipoolsByNode node1.NodeAddress = [mpB] ∧
    node2 ≠ node1 ∧ mpB ≠ mpA := by
  refine ⟨rfl, rfl, rfl, by decide, by decide⟩

/-! ## Non-negativity (C6) -/

/-- Truncating and Euclidean division agree on non-negative operands. -/
theorem tdiv_eq_ediv_of_nonneg {a b : Int} (ha : 0 ≤ a) (hb : 0 ≤ b) :
    a.tdiv b = a.ediv b := by
  obtain ⟨m, rfl⟩ := Int.eq_ofNat_of_zero_le ha
  obtain ⟨n, rfl⟩ := Int.eq_ofNat_of_zero_le hb
  rfl

/-- Saturating a non-negative duration stays non-negative. -/
theorem satDuration_nonneg {x : Int} (h : 0 ≤ x) : 0 ≤ satDuration x := by
  unfold satDuration
  omega

/-- A loop iteration either keeps the accumulator or adds the minipool's two
deposits. -/
theorem addEligible_inv (s : NetworkState) (acc : Int × Int) (mpd : NativeMinipoolDetails)
    (acc' : Int × Int) (h : addEligible s acc mpd = some acc') :
    acc' = acc ∨ acc' = (acc.1 + mpd.UserDepositBalance, acc.2 + mpd.NodeDepositBalance) := by
  unfold addEligible at h
  repeat' split at h
  all_goals first
    | (injection h with h; exact Or.inl h.symm)
    | (injection h with h; exact Or.inr h.symm)
    | injection h

/-- The eligibility loop preserves non-negativity of both accumulators when
every deposit in the list is non-negative. -/
theorem foldlM_addEligible_nonneg (s : NetworkState) :
    ∀ (l : List NativeMinipoolDetails)
      (_ : ∀ mp ∈ l, 0 ≤ mp.UserDepositBalance ∧ 0 ≤ mp.NodeDepositBalance)
      (acc : Int × Int) (_ : 0 ≤ acc.1) (_ : 0 ≤ acc.2) (r : Int × Int)
      (_ : l.foldlM (addEligible s) acc = some r),
    0 ≤ r.1 ∧ 0 ≤ r.2 := by
  intro l
  induction l with
  | nil =>
    intro _ acc h1 h2 r hr
    rw [List.foldlM_nil] at hr
    injection hr with hr
    exact hr ▸ ⟨h1, h2⟩
  | cons x l ih =>
    intro hdep acc h1 h2 r hr
    rw [List.foldlM_cons] at hr
    cases hx : addEligible s acc x with
    | none => rw [hx] at hr; exact absurd hr (by simp)
    | some acc' =>
      rw [hx] at hr
      simp only [Option.bind_eq_bind, Option.some_bind] at hr
      have hdx := hdep x (List.mem_cons_self x l)
      rcases addEligible_inv s acc x acc' hx with rfl | rfl
      · exact ih (fun mp hm => hdep mp (List.mem_cons_of_mem x hm)) acc' h1 h2 r hr
      · exact ih (fun mp hm => hdep mp (List.mem_cons_of_mem x hm)) _
          (by simp; omega) (by simp; omega) r hr

/-- The clamped stake is non-negative for a non-negative raw stake, positive
price, non-negative max fraction and non-negative deposits. -/
theorem clampedStake_nonneg (s : NetworkState) (node : NativeNodeDetails)
    (hraw : 0 ≤ node.RplStake) (hp : 0 < s.NetworkDetails.RplPrice)
    (hmaxF : 0 ≤ s.NetworkDetails.MaxCollateralFraction)
    (hdep : ∀ mp ∈ s.MinipoolDetailsByNode node.NodeAddress,
      0 ≤ mp.UserDepositBalance ∧ 0 ≤ mp.NodeDepositBalance)
    (c : Int) (hc : clampedStake s node = some c) : 0 ≤ c := by
  unfold clampedStake at hc
  cases hsums : eligibleSums s node with
  | none => rw [hsums] at hc; exact absurd hc (by simp)
  | some sums =>
    rw [hsums] at hc
    simp only [Option.bind_eq_bind, Option.some_bind, bigDiv,
      if_neg (Int.ne_of_gt hp), pure] at hc
    have hsnn := foldlM_addEligible_nonneg s _ hdep (0, 0) le_rfl le_rfl sums hsums
    injection hc with hc
    subst hc
    unfold clampNodeStake
    split
    · exact le_rfl
    · split
      · exact Int.ediv_nonneg (Int.mul_nonneg hsnn.2 hmaxF) (Int.le_of_lt hp)
      · exact hraw

set_option maxRecDepth 4000 in
/-- A worker's stake is non-negative when additionally the interval is
non-negative and (under scaling) the operator registered no later than the
slot time. -/
theorem nodeWorker_nonneg (s : NetworkState) (flag : Bool) (node : NativeNodeDetails)
    (hraw : 0 ≤ node.RplStake) (hp : 0 < s.NetworkDetails.RplPrice)
    (hmaxF : 0 ≤ s.NetworkDetails.MaxCollateralFraction)
    (hival : 0 ≤ s.NetworkDetails.IntervalDuration)
    (hreg : flag = true → registrationTime node ≤ slotTime s)
    (hdep : ∀ mp ∈ s.MinipoolDetailsByNode node.NodeAddress,
      0 ≤ mp.UserDepositBalance ∧ 0 ≤ mp.NodeDepositBalance)
    (st : Int) (hst : nodeWorker s flag node = some st) : 0 ≤ st := by
  unfold nodeWorker at hst
  cases hc : clampedStake s node with
  | none => rw [hc] at hst; exact absurd hst (by simp)
  | some c =>
    rw [hc] at hst
    simp only [Option.bind_eq_bind, Option.some_bind] at hst
    have hcnn := clampedStake_nonneg s node hraw hp hmaxF hdep c hc
    cases flag with
    | false =>
      simp only [Bool.false_eq_true, if_false, ite_false, pure] at hst
      injection hst with hst
      exact hst ▸ hcnn
    | true =>
      simp only [if_true, ite_true] at hst
      unfold scaleStake at hst
      dsimp only at hst
      split at hst
      · unfold bigDiv at hst
        split at hst
        · simp at hst
        · simp only [Option.some.injEq] at hst
          subst hst
          have helig : 0 ≤ satDuration (slotTime s - registrationTime node) :=
            satDuration_nonneg (by have := hreg rfl; omega)
          exact Int.ediv_nonneg
            (Int.mul_nonneg hcnn (Int.tdiv_nonneg helig (by norm_num)))
            (Int.tdiv_nonneg hival (by norm_num))
      · injection hst with hst
        exact hst ▸ hcnn

/-- Every stake in a fully collected slice came from some slot. -/
theorem collectSlots_mem :
    ∀ (l : List (Option Int)) (out : List Int) (_ : collectSlots l = some out)
      (x : Int) (_ : x ∈ out), some x ∈ l := by
  intro l
  induction l with
  | nil =>
    intro out h x hx
    unfold collectSlots at h
    injection h with h
    subst h
    exact absurd hx (List.not_mem_nil x)
  | cons o l ih =>
    intro out h x hx
    cases o with
    | none => exact Option.noConfusion h
    | some y =>
      unfold collectSlots at h
      cases hrest : collectSlots l with
      | none => rw [hrest] at h; exact absurd h (by simp)
      | some out' =>
        rw [hrest] at h
        injection h with h
        subst h
        rcases List.mem_cons.mp hx with rfl | hx'
        · exact List.mem_cons_self _ _
        · exact List.mem_cons_of_mem _ (ih out' hrest x hx')

/-- Folding exact addition over non-negative stakes from a non-negative
start stays non-negative. -/
theorem foldl_add_nonneg :
    ∀ (l : List Int) (_ : ∀ x ∈ l, (0:Int) ≤ x) (init : Int) (_ : 0 ≤ init),
    0 ≤ l.foldl (· + ·) init := by
  intro l
  induction l with
  | nil => intro _ init h; simpa using h
  | cons x l ih =>
    intro hmem init hinit
    rw [List.foldl_cons]
    exact ih (fun y hy => hmem y (List.mem_cons_of_mem x hy)) (init + x)
      (by have := hmem x (List.mem_cons_self x l); omega)

/-- C6 counterexample: the claim says every per-operator effective stake is
non-negative, in particular when scaling is enabled and the registration
timestamp lies after the slot time.  On `negState` (registration second 2000,
slot time second 1000) the calculator instead returns the negative stake
`-157` and negative total. -/
theorem c6_nonneg_counterexample :
    CalculateEffectiveStakes negState true = some (Except.ok ([(1, -157)], -157)) ∧
    (-157 : Int) < 0 :=
  ⟨rfl, by decide⟩

/-- C6 amended: the result stakes and total are non-negative provided raw
stakes, deposits and the max collateral fraction are non-negative, the price
is positive, the interval is non-negative, and — when scaling is enabled —
every operator registered no later than the snapshot's slot time.  (An
operator registered after the slot time can receive a negative stake, as the
counterexample shows.) -/
theorem c6_nonneg_amended (s : NetworkState) (flag : Bool)
    (hstake : ∀ node ∈ s.NodeDetails, 0 ≤ node.RplStake)
    (hp : 0 < s.NetworkDetails.RplPrice)
    (hmaxF : 0 ≤ s.NetworkDetails.MaxCollateralFraction)
    (hival : 0 ≤ s.NetworkDetails.IntervalDuration)
    (hreg : flag = true → ∀ node ∈ s.NodeDetails, registrationTime node ≤ slotTime s)
    (hdep : ∀ node ∈ s.NodeDetails, ∀ mp ∈ s.MinipoolDetailsByNode node.NodeAddress,
      0 ≤ mp.UserDepositBalance ∧ 0 ≤ mp.NodeDepositBalance)
    (res : List (Address × Int) × Int)
    (hres : CalculateEffectiveStakes s flag = some (Except.ok res)) :
    res.1.all nonnegStake = true ∧ 0 ≤ res.2 := by
  unfold CalculateEffectiveStakes at hres
  cases hcol : collectSlots (effectiveStakeSlice s flag) with
  | none => rw [hcol] at hres; exact Option.noConfusion hres
  | some stakes =>
    rw [hcol] at hres
    have hres' : res = tally s stakes := by
      injection hres with h
      injection h with h
      exact h.symm
    have hnn : ∀ x ∈ stakes, (0:Int) ≤ x := by
      intro x hx
      have hsx := collectSlots_mem _ _ hcol x hx
      obtain ⟨node, hnode, hwx⟩ := List.mem_map.mp (by simpa [effectiveStakeSlice] using hsx)
      exact nodeWorker_nonneg s flag node (hstake node hnode) hp hmaxF hival
        (fun hf => hreg hf node hnode) (hdep node hnode) x hwx
    subst hres'
    constructor
    · unfold tally
      rw [List.all_eq_true]
      intro p hpz
      obtain ⟨a, b⟩ := p
      have hb := (List.of_mem_zip hpz).2
      unfold nonnegStake
      exact decide_eq_true (hnn b hb)
    · exact foldl_add_nonneg stakes hnn 0 le_rfl

/-- Witness for the amended C6 on the well-behaved fixture. -/
theorem c6_nonneg_amended_witness :
    ([((1 : Address), (12 : Int)), (2, 7)].all nonnegStake = true) ∧ (0 : Int) ≤ 19 :=
  c6_nonneg_amended goodState true (by decide) (by decide) (by decide) (by decide)
    (by decide) (by decide) ([(1, 12), (2, 7)], 19) rfl

/-! ## Participation scaling (C7) -/

/-- C7 counterexample: the claim says the scaled stake divides with
truncating integer division.  On `negState` the elapsed duration is negative,
the code's `big.Int.Div` (Euclidean, rounding toward negative infinity for a
positive divisor) yields `-157`, while the claimed truncating division yields
`-156`. -/
theorem c7_scaling_counterexample :
    clampedStake negState negNode = some 10 ∧
    satDuration (slotTime negState - registrationTime negNode) <
      negState.NetworkDetails.IntervalDuration ∧
    nodeWorker negState true negNode = some (-157) ∧
    Int.tdiv (10 * Int.tdiv (satDuration (slotTime negState - registrationTime negNode))
        1000000000) (intervalDurationBig negState) = -156 ∧
    ((-157 : Int) ≠ -156) :=
  ⟨rfl, by decide, rfl, by decide, by decide⟩

/-- C7 amended: when the elapsed duration (slot time minus registration
time, saturated to the duration range) is strictly below the interval
duration, the worker multiplies the clamped stake by the elapsed seconds and
then divides by the interval seconds in exactly that order, using `big.Int`'s
Euclidean division (which agrees with truncation on non-negative operands but
rounds toward negative infinity on a negative product); an operator whose
elapsed duration reaches the interval keeps its clamped stake unscaled. -/
theorem c7_scaling_amended (s : NetworkState) (node : NativeNodeDetails) (c : Int)
    (hc : clampedStake s node = some c) :
    (satDuration (slotTime s - registrationTime node) < s.NetworkDetails.IntervalDuration →
      intervalDurationBig s ≠ 0 →
      nodeWorker s true node =
        some (Int.ediv (c * Int.tdiv (satDuration (slotTime s - registrationTime node))
          1000000000) (intervalDurationBig s))) ∧
    (¬ satDuration (slotTime s - registrationTime node) < s.NetworkDetails.IntervalDuration →
      nodeWorker s true node = some c) := by
  unfold nodeWorker
  rw [hc]
  simp only [Option.bind_eq_bind, Option.some_bind, if_true, ite_true]
  unfold scaleStake bigDiv intervalDurationBig slotTime
  constructor
  · intro h1 h2
    rw [if_pos h1, if_neg]
    exact fun h => h2 (by simpa [intervalDurationBig] using h)
  · intro h1
    rw [if_neg h1]
    rfl

/-- Witness for the amended C7: the second fixture operator registered
halfway through the interval and is scaled multiply-then-divide. -/
theorem c7_scaling_amended_witness :
    nodeWorker goodState true node2 =
      some (Int.ediv ((15 : Int) * Int.tdiv
        (satDuration (slotTime goodState - registrationTime node2)) 1000000000)
        (intervalDurationBig goodState)) :=
  (c7_scaling_amended goodState node2 15 rfl).1 (by decide) (by decide)

/-! ## Snapshot atomicity (C8) -/

/-- C8: snapshot construction is all-or-nothing — a `NetworkState` is
returned exactly when the Beacon-block read succeeded with an existing block
and every scalar-parameter read, both entity-list reads and the
validator-status resolution succeeded; any failure (at any position in the
sequence) yields an error and no state. -/
theorem c8_snapshot_atomicity (inp : BuilderInputs) (slotNumber : Nat)
    (beaconConfig : Eth2Config) :
    (∃ st, CreateNetworkState inp slotNumber beaconConfig = Except.ok st) ↔
      (beaconBlockOk inp = true ∧
       inp.rplPrice.isOk = true ∧
       inp.minCollateralFraction.isOk = true ∧
       inp.maxCollateralFraction.isOk = true ∧
       inp.rewardIndex.isOk = true ∧
       inp.intervalDuration.isOk = true ∧
       inp.nodeOperatorRewardsPercent.isOk = true ∧
       inp.trustedNodeOperatorRewardsPercent.isOk = true ∧
       inp.protocolDaoRewardsPercent.isOk = true ∧
       inp.pendingRPLRewards.isOk = true ∧
       inp.nodeDetails.isOk = true ∧
       inp.minipoolDetails.isOk = true ∧
       inp.validatorStatuses.isOk = true) := by
  unfold CreateNetworkState beaconBlockOk
  cases hf : inp.beaconBlock with
  | error e => simp [wrapErr, Except.isOk, Except.toBool, Except.bind, bind]
  | ok v =>
    obtain ⟨el, ex⟩ := v
    cases ex
    · simp [wrapErr, Except.isOk, Except.toBool, Except.bind, bind]
    · simp only [wrapErr, Except.bind, bind, Except.isOk, Except.toBool, true_and]
      cases h2 : inp.rplPrice with
      | error e => simp [Except.isOk, Except.toBool]
      | ok v2 =>
        simp only [Except.isOk, Except.toBool, true_and]
        cases h3 : inp.minCollateralFraction with
        | error e => simp [Except.isOk, Except.toBool]
        | ok v3 =>
          simp only [Except.isOk, Except.toBool, true_and]
          cases h4 : inp.maxCollateralFraction with
          | error e => simp [Except.isOk, Except.toBool]
          | ok v4 =>
            simp only [Except.isOk, Except.toBool, true_and]
            cases h5 : inp.rewardIndex with
            | error e => simp [Except.isOk, Except.toBool]
            | ok v5 =>
              simp only [Except.isOk, Except.toBool, true_and]
              cases h6 : inp.intervalDuration with
              | error e => simp [Except.isOk, Except.toBool]
              | ok v6 =>
                simp only [Except.isOk, Except.toBool, true_and]
                cases h7 : inp.nodeOperatorRewardsPercent with
                | error e => simp [Except.isOk, Except.toBool]
                | ok v7 =>
                  simp only [Except.isOk, Except.toBool, true_and]
                  cases h8 : inp.trustedNodeOperatorRewardsPercent with
                  | error e => simp [Except.isOk, Except.toBool]
                  | ok v8 =>
                    simp only [Except.isOk, Except.toBool, true_and]
                    cases h9 : inp.protocolDaoRewardsPercent with
                    | error e => simp [Except.isOk, Except.toBool]
                    | ok v9 =>
                      simp only [Except.isOk, Except.toBool, true_and]
                      cases h10 : inp.pendingRPLRewards with
                      | error e => simp [Except.isOk, Except.toBool]
                      | ok v10 =>
                        simp only [Except.isOk, Except.toBool, true_and]
                        cases h11 : inp.nodeDetails with
                        | error e => simp [Except.isOk, Except.toBool]
                        | ok v11 =>
                          simp only [Except.isOk, Except.toBool, true_and]
                          cases h12 : inp.minipoolDetails with
                          | error e => simp [Except.isOk, Except.toBool]
                          | ok v12 =>
                            simp only [Except.isOk, Except.toBool, true_and]
                            cases h13 : inp.validatorStatuses with
                            | error e => simp [Except.isOk, Except.toBool]
                            | ok v13 =>
                              simp [Except.isOk, Except.toBool, pure, Except.pure]

/-! ## Calculator success (C10) -/

/-- With a non-zero price and non-zero slots-per-epoch, the clamped stake is
always produced. -/
theorem clampedStake_isSome (s : NetworkState) (node : NativeNodeDetails)
    (hp : s.NetworkDetails.RplPrice ≠ 0)
    (hspe : s.BeaconConfig.SlotsPerEpoch ≠ 0) :
    ∃ c, clampedStake s node = some c := by
  unfold clampedStake
  rw [eligibleSums_eq s node hspe]
  simp [bigDiv, hp, pure]

/-- A worker returns normally when the price and slots-per-epoch are
non-zero and, under scaling, the interval lasts at least one second. -/
theorem nodeWorker_isSome (s : NetworkState) (flag : Bool) (node : NativeNodeDetails)
    (hp : s.NetworkDetails.RplPrice ≠ 0)
    (hspe : s.BeaconConfig.SlotsPerEpoch ≠ 0)
    (hival : flag = true → 1000000000 ≤ s.NetworkDetails.IntervalDuration) :
    (nodeWorker s flag node).isSome = true := by
  obtain ⟨c, hc⟩ := clampedStake_isSome s node hp hspe
  unfold nodeWorker
  rw [hc]
  simp only [Option.bind_eq_bind, Option.some_bind]
  cases flag with
  | false => simp [pure]
  | true =>
    simp only [if_true, ite_true]
    unfold scaleStake
    dsimp only
    split
    · have h1 : (1:Int) ≤ intervalDurationBig s := by
        have hge := hival rfl
        unfold intervalDurationBig
        rw [tdiv_eq_ediv_of_nonneg (by omega) (by norm_num)]
        calc (1:Int) = Int.ediv 1000000000 1000000000 := by decide
          _ ≤ Int.ediv s.NetworkDetails.IntervalDuration 1000000000 :=
            Int.ediv_le_ediv (by norm_num) hge
      simp [bigDiv, show intervalDurationBig s ≠ 0 by omega]
    · simp [pure]

/-- A slice of `some` slots collects to a list. -/
theorem collectSlots_all_isSome :
    ∀ (l : List (Option Int)) (_ : ∀ o ∈ l, o.isSome = true),
    ∃ out, collectSlots l = some out := by
  intro l
  induction l with
  | nil => intro _; exact ⟨[], rfl⟩
  | cons o l ih =>
    intro hall
    cases o with
    | none => exact absurd (hall none (List.mem_cons_self _ _)) (by simp)
    | some x =>
      obtain ⟨out, hout⟩ := ih (fun o ho => hall o (List.mem_cons_of_mem _ ho))
      exact ⟨x :: out, by unfold collectSlots; rw [hout]; rfl⟩

/-- C10 counterexample: the claim says a non-zero price ratio guarantees the
calculator succeeds with a nil error.  On `subSecondState` the price is
non-zero, yet with scaling enabled and a sub-second interval
(`intervalDurationBig = 0`) the worker's scaling division divides by zero and
the process aborts — the call never returns at all. -/
theorem c10_always_succeeds_counterexample :
    subSecondState.NetworkDetails.RplPrice ≠ 0 ∧
    CalculateEffectiveStakes subSecondState true = none :=
  ⟨by decide, rfl⟩

/-- C10 amended: whenever the calculator returns, the error is nil (every
worker ends in `return nil`, so the error branch of `wg.Wait` is
unreachable); and it does return — with an `Except.ok` result — provided the
price ratio and slots-per-epoch are non-zero and, when scaling is requested,
the interval duration is at least one second (ruling out the
division-by-zero aborts). -/
theorem c10_always_succeeds_amended (s : NetworkState) (flag : Bool)
    (hp : s.NetworkDetails.RplPrice ≠ 0)
    (hspe : s.BeaconConfig.SlotsPerEpoch ≠ 0)
    (hival : flag = true → 1000000000 ≤ s.NetworkDetails.IntervalDuration) :
    calcSucceeds s flag = true := by
  obtain ⟨out, hout⟩ := collectSlots_all_isSome (effectiveStakeSlice s flag) (by
    intro o ho
    obtain ⟨node, _, hw⟩ := List.mem_map.mp (by simpa [effectiveStakeSlice] using ho)
    exact hw ▸ nodeWorker_isSome s flag node hp hspe hival)
  unfold calcSucceeds CalculateEffectiveStakes
  rw [hout]

/-- Witness for the amended C10 on the well-behaved fixture. -/
theorem c10_always_succeeds_amended_witness : calcSucceeds goodState true = true :=
  c10_always_succeeds_amended goodState true (by decide) (by decide) (by decide)

/-! ## The calculator never mutates pre-existing cells (C9) -/

/-- Reading inside the original prefix is unaffected by appending. -/
theorem getD_append_left (l l' : List Int) (a : Nat) (h : a < l.length) :
    (l ++ l').getD a 0 = l.getD a 0 := by
  simp [List.getD, List.getElem?_append_left h]

/-- Reading a different cell is unaffected by a write. -/
theorem getD_set_ne (l : List Int) (r a : Nat) (v : Int) (h : a ≠ r) :
    (l.set r v).getD a 0 = l.getD a 0 := by
  simp [List.getD, List.getElem?_set_ne (show r ≠ a by omega)]

/-- Every store preserves itself. -/
theorem preserve_refl (σ : Store) : Preserve σ σ := ⟨le_refl _, fun _ _ => rfl⟩

/-- Allocating a fresh cell preserves all earlier cells. -/
theorem preserve_alloc {σ₀ σ : Store} (h : Preserve σ₀ σ) (v : Int) :
    Preserve σ₀ (σ ++ [v]) := by
  refine ⟨by simpa using Nat.le_succ_of_le h.1, fun a ha => ?_⟩
  rw [getD_append_left σ [v] a (lt_of_lt_of_le ha h.1)]
  exact h.2 a ha

/-- Writing to a cell allocated during the call preserves all earlier cells. -/
theorem preserve_write {σ₀ σ : Store} (h : Preserve σ₀ σ) {r : Nat}
    (hr : σ₀.length ≤ r) (v : Int) : Preserve σ₀ (writeRef σ r v) := by
  refine ⟨by simpa [writeRef] using h.1, fun a ha => ?_⟩
  rw [writeRef, getD_set_ne σ r a v (by omega)]
  exact h.2 a ha

/-- One eligibility-loop iteration only writes the two fresh accumulator
cells. -/
theorem preserve_addEligibleH {s : NetworkStateH} {b d : Ref} {σ₀ σ σ' : Store}
    {mpd : NativeMinipoolDetailsH} (h : Preserve σ₀ σ)
    (hb : σ₀.length ≤ b) (hd : σ₀.length ≤ d)
    (heq : addEligibleH s b d σ mpd = some σ') : Preserve σ₀ σ' := by
  unfold addEligibleH at heq
  repeat' split at heq
  all_goals first
    | (injection heq with heq; subst heq; exact h)
    | (injection heq with heq; subst heq;
        exact preserve_write (preserve_write h hb _) hd _)
    | injection heq

/-- The whole eligibility loop only writes the two fresh accumulator cells. -/
theorem preserve_foldEligH {s : NetworkStateH} {b d : Ref} {σ₀ : Store}
    (hb : σ₀.length ≤ b) (hd : σ₀.length ≤ d) :
    ∀ (l : List NativeMinipoolDetailsH) (σ σ' : Store) (_ : Preserve σ₀ σ)
      (_ : l.foldlM (addEligibleH s b d) σ = some σ'), Preserve σ₀ σ' := by
  intro l
  induction l with
  | nil =>
    intro σ σ' h heq
    rw [List.foldlM_nil] at heq
    injection heq with heq
    exact heq ▸ h
  | cons x l ih =>
    intro σ σ' h heq
    rw [List.foldlM_cons] at heq
    cases hx : addEligibleH s b d σ x with
    | none => rw [hx] at heq; exact Option.noConfusion heq
    | some σ₁ =>
      rw [hx] at heq
      simp only [Option.bind_eq_bind, Option.some_bind] at heq
      exact ih σ₁ σ' (preserve_addEligibleH h hb hd hx) heq

/-- The eligible-sums phase preserves earlier cells and returns fresh cells. -/
theorem preserve_eligibleSumsH {s : NetworkStateH} {node : NativeNodeDetailsH}
    {σ₀ σ σ' : Store} {bd : Ref × Ref} (h : Preserve σ₀ σ)
    (heq : eligibleSumsH s node σ = some (bd, σ')) :
    Preserve σ₀ σ' ∧ σ₀.length ≤ bd.1 ∧ σ₀.length ≤ bd.2 := by
  unfold eligibleSumsH at heq
  dsimp only [allocRef] at heq
  split at heq
  · exact Option.noConfusion heq
  · rename_i σ3 hfold
    injection heq with heq
    rw [Prod.mk.injEq] at heq
    obtain ⟨hbd, hσ⟩ := heq
    subst hσ
    have hb : σ₀.length ≤ σ.length := h.1
    have hd : σ₀.length ≤ (σ ++ [0]).length := by simpa using Nat.le_succ_of_le h.1
    refine ⟨preserve_foldEligH hb hd _ _ _ (preserve_alloc (preserve_alloc h 0) 0) hfold,
      ?_, ?_⟩
    · rw [← hbd]; exact hb
    · rw [← hbd]; exact hd

/-- The collateral phase writes only its two fresh cells. -/
theorem preserve_collateralsH {s : NetworkStateH} {b d : Ref} {σ₀ σ σ' : Store}
    {mx : Ref × Ref} (h : Preserve σ₀ σ)
    (heq : collateralsH s b d σ = some (mx, σ')) : Preserve σ₀ σ' := by
  unfold collateralsH at heq
  dsimp only [allocRef] at heq
  split at heq
  · exact Option.noConfusion heq
  · split at heq
    · exact Option.noConfusion heq
    · injection heq with heq
      rw [Prod.mk.injEq] at heq
      obtain ⟨_, hσ⟩ := heq
      subst hσ
      have h1 : Preserve σ₀ (writeRef
          (σ ++ [readRef σ b * readRef σ s.NetworkDetails.MinCollateralFraction]) σ.length
          (Int.ediv
            (readRef (σ ++ [readRef σ b * readRef σ s.NetworkDetails.MinCollateralFraction])
              σ.length)
            (readRef (σ ++ [readRef σ b * readRef σ s.NetworkDetails.MinCollateralFraction])
              s.NetworkDetails.RplPrice))) :=
        preserve_write (preserve_alloc h _) h.1 _
      exact preserve_write (preserve_alloc h1 _) (le_trans h.1 (by simp [writeRef])) _

/-- The clamp phase writes only the fresh `nodeStake` cell, which it returns. -/
theorem clampH_spec {mc xc : Ref} {node : NativeNodeDetailsH} {σ₀ σ : Store}
    (h : Preserve σ₀ σ) :
    Preserve σ₀ (clampH mc xc node σ).2 ∧ σ₀.length ≤ (clampH mc xc node σ).1 := by
  unfold clampH
  dsimp only [allocRef]
  have halloc : Preserve σ₀ (σ ++ [readRef σ node.RplStake]) := preserve_alloc h _
  split
  · exact ⟨preserve_write halloc h.1 _, h.1⟩
  · split
    · exact ⟨preserve_write halloc h.1 _, h.1⟩
    · exact ⟨halloc, h.1⟩

/-- The scaling phase writes only the fresh `eligibleSeconds` cell and the
worker's own `nodeStake` cell. -/
theorem preserve_scaleH {s : NetworkStateH} {ivalBig ns : Ref}
    {node : NativeNodeDetailsH} {σ₀ σ σ' : Store} (h : Preserve σ₀ σ)
    (hns : σ₀.length ≤ ns) (heq : scaleH s ivalBig ns node σ = some σ') :
    Preserve σ₀ σ' := by
  unfold scaleH at heq
  dsimp only [allocRef] at heq
  split at heq
  · split at heq
    · exact Option.noConfusion heq
    · injection heq with heq
      subst heq
      exact preserve_write (preserve_write (preserve_alloc h _) hns _) hns _
  · injection heq with heq
    exact heq ▸ h

/-- A whole worker writes only cells allocated during the call. -/
theorem preserve_nodeWorkerH {s : NetworkStateH} {flag : Bool} {ivalBig : Ref}
    {node : NativeNodeDetailsH} {σ₀ σ σ' : Store} {r : Ref} (h : Preserve σ₀ σ)
    (heq : nodeWorkerH s flag ivalBig node σ = some (r, σ')) : Preserve σ₀ σ' := by
  unfold nodeWorkerH at heq
  split at heq
  · exact Option.noConfusion heq
  · rename_i b d σ1 hsums
    split at heq
    · exact Option.noConfusion heq
    · rename_i mc xc σ2 hcols
      obtain ⟨hpre1, hb, hd⟩ := preserve_eligibleSumsH h hsums
      have hpre2 := preserve_collateralsH hpre1 hcols
      have hclamp := @clampH_spec mc xc node σ₀ σ2 hpre2
      rcases hcl : clampH mc xc node σ2 with ⟨ns, σ3⟩
      rw [hcl] at heq hclamp
      dsimp only at heq hclamp
      split at heq
      · split at heq
        · exact Option.noConfusion heq
        · rename_i σ4 hscale
          injection heq with heq
          rw [Prod.mk.injEq] at heq
          exact heq.2 ▸ preserve_scaleH hclamp.1 hclamp.2 hscale
      · injection heq with heq
        rw [Prod.mk.injEq] at heq
        exact heq.2 ▸ hclamp.1

/-- All workers together write only cells allocated during the call. -/
theorem preserve_runWorkersH {s : NetworkStateH} {flag : Bool} {ivalBig : Ref}
    {σ₀ : Store} :
    ∀ (l : List NativeNodeDetailsH) (σ : Store) (refs : List Ref) (σ' : Store)
      (_ : Preserve σ₀ σ) (_ : runWorkersH s flag ivalBig l σ = some (refs, σ')),
    Preserve σ₀ σ' := by
  intro l
  induction l with
  | nil =>
    intro σ refs σ' h heq
    unfold runWorkersH at heq
    injection heq with heq
    rw [Prod.mk.injEq] at heq
    exact heq.2 ▸ h
  | cons n l ih =>
    intro σ refs σ' h heq
    unfold runWorkersH at heq
    split at heq
    · exact Option.noConfusion heq
    · rename_i r σ1 hw
      split at heq
      · exact Option.noConfusion heq
      · rename_i rs σ2 hrun
        injection heq with heq
        rw [Prod.mk.injEq] at heq
        exact heq.2 ▸ ih σ1 rs σ2 (preserve_nodeWorkerH h hw) hrun

/-- The tally loop writes only the fresh `totalEffectiveStake` cell. -/
theorem preserve_tallyH {σ₀ : Store} {total : Ref} (htotal : σ₀.length ≤ total) :
    ∀ (pairs : List (Address × Ref)) (σ : Store) (_ : Preserve σ₀ σ),
    Preserve σ₀ (tallyH total pairs σ) := by
  intro pairs
  induction pairs with
  | nil => intro σ h; exact h
  | cons p rest ih =>
    intro σ h
    obtain ⟨a, r⟩ := p
    unfold tallyH
    exact ih _ (preserve_write h htotal _)

/-- When the calculator returns, the final store preserves every cell that
existed before the call. -/
theorem preserve_calcH (s : NetworkStateH) (flag : Bool) (σ : Store)
    (out : List (Address × Ref) × Ref) (σ' : Store)
    (heq : CalculateEffectiveStakesH s flag σ = some (out, σ')) : Preserve σ σ' := by
  unfold CalculateEffectiveStakesH at heq
  dsimp only [allocRef] at heq
  split at heq
  · exact Option.noConfusion heq
  · rename_i refs σ1 hrun
    injection heq with heq
    rw [Prod.mk.injEq] at heq
    have h1 : Preserve σ (σ ++ [0] ++ [Int.tdiv s.NetworkDetails.IntervalDuration 1000000000]) :=
      preserve_alloc (preserve_alloc (preserve_refl σ) _) _
    have h2 := preserve_runWorkersH _ _ _ _ h1 hrun
    exact heq.2 ▸ preserve_tallyH (le_refl σ.length) _ _ h2

/-- C9: `CalculateEffectiveStakes` does not mutate the `NetworkState` it is
called on.  In the heap embedding every `*big.Int` reachable from the state —
`RplPrice`, the two collateral fractions, every node's `RplStake` and
`RegistrationTime`, every minipool's deposits — is a cell that exists before
the call, and after the call every such cell reads exactly as before (the
immutable parts of the state — the lists, indexes and validator map — are
pure values that the embedding cannot modify by construction). -/
theorem c9_calculator_no_mutation (s : NetworkStateH) (scaleByParticipation : Bool)
    (σ : Store) (a : Nat) (ha : a < σ.length) :
    readAfterCalc s scaleByParticipation σ a = σ.getD a 0 := by
  unfold readAfterCalc
  cases hc : CalculateEffectiveStakesH s scaleByParticipation σ with
  | none => rfl
  | some r =>
    obtain ⟨out, σ'⟩ := r
    exact (preserve_calcH s scaleByParticipation σ out σ' hc).2 a ha

/-- Witness for C9: the node's `RegistrationTime` cell (index 4 of the
heap fixture) is untouched by a full scaled calculation. -/
theorem c9_calculator_no_mutation_witness :
    readAfterCalc heapState true heapStore 4 = heapStore.getD 4 0 :=
  c9_calculator_no_mutation heapState true heapStore 4 (by decide)
